import Mathlib

/-!
A verification development for `core/dbt/parser/search.py`: the block-search
abstraction of dbt-core. The Python module is shallowly embedded here:

* `filesystem_search` with its matcher-record validation,
* the `FileBlock` / `BlockContents` / `FullBlock` views,
* `BlockSearcher` with its per-file extraction loop, warning forwarding and
  parse-error enrichment.

External collaborators (the jinja block-extraction engine
`extract_toplevel_blocks`, the path matcher `find_matching`, the deprecation
sink `deprecations.warn`, and fnmatch-style glob semantics) are modelled as
explicit parameters or, where the specification fixes their contract, as
definitions marked "Modelled from the spec".

Side effects are made explicit: deprecation-sink invocations become a list of
`DeprecationCall` values, raised exceptions become explicit error results.
-/

namespace DbtSearch

/-- `dbt.contracts.files.FilePath` as used by `filesystem_search`: the record
built from a validated matcher result.  `modification_time` is an opaque
comparable stamp (a float in Python, modelled as an integer). -/
structure FilePath where
  searched_path : String
  relative_path : String
  modification_time : Int
  project_root : String
  deriving Repr, DecidableEq

/-- The slice of `dbt.config.Project` that `filesystem_search` reads: only
`project_root`. -/
structure Project where
  project_root : String
  deriving Repr, DecidableEq

/-- A record returned by the external matcher `find_matching`.  In Python it is
a dict; key presence is modelled with `Option` fields, covering the three keys
`filesystem_search` reads. -/
structure MatchRecord where
  searched_path : Option String
  relative_path : Option String
  modification_time : Option Int
  deriving Repr, DecidableEq

/-- The two exception classes `filesystem_search` can raise:
`DbtInternalError` for a record missing `searched_path`/`relative_path`, and a
plain `KeyError` from the unguarded `result["modification_time"]` lookup. -/
inductive SearchError where
  | internalError (msg : String)
  | keyError (key : String)
  deriving Repr, DecidableEq

/-- `ext = "[!.#~]*" + extension` (search.py line 84): the glob pattern handed
to the matcher. -/
def searchPattern (extension : String) : String :=
  "[!.#~]*" ++ extension

/-- Modelled from the spec: the external `find_matching` path matcher.  It
receives the root, the relative directories, the glob pattern and the optional
ignore spec, and emits a sequence of records. -/
def Matcher : Type :=
  String → List String → String → Option (List String) → List MatchRecord

/-- The body of the `for result in find_matching(...)` loop of
`filesystem_search`: validate presence of `searched_path` and
`relative_path`, then build a `FilePath` (reading `modification_time`
unguarded, hence a `KeyError` when absent).  The Python error message
interpolates the dict repr; the repr itself is abstracted. -/
def filePathsOf (root : String) : List MatchRecord → Except SearchError (List FilePath)
  | [] => Except.ok []
  | r :: rest =>
    match r.searched_path, r.relative_path with
    | some sp, some rp =>
      match r.modification_time with
      | some mt =>
        match filePathsOf root rest with
        | Except.ok l =>
          Except.ok ({ searched_path := sp, relative_path := rp,
                       modification_time := mt, project_root := root } :: l)
        | Except.error e => Except.error e
      | none => Except.error (SearchError.keyError "modification_time")
    | _, _ =>
      Except.error (SearchError.internalError "Invalid result from find_matching")

/-- `filesystem_search(project, relative_dirs, extension, ignore_spec)`
(search.py lines 78-98), parameterised by the external matcher. -/
def filesystem_search (matcher : Matcher) (project : Project)
    (relative_dirs : List String) (extension : String)
    (ignore_spec : Option (List String)) : Except SearchError (List FilePath) :=
  let ext := searchPattern extension
  let root := project.project_root
  filePathsOf root (matcher root relative_dirs ext ignore_spec)

/-- The slice of `AnySourceFile` that `search.py` reads: a path record and the
loaded text. -/
structure AnySourceFile where
  path : FilePath
  contents : String
  deriving Repr, DecidableEq

/-- Modelled from the spec: `BlockTag`, the record produced by the external
block-extraction engine — block type, block name, raw inner contents and the
full delimited text. -/
structure BlockTag where
  block_type_name : String
  block_name : String
  contents : String
  full_block : String
  deriving Repr, DecidableEq

/-- Modelled from the spec: the engine invariant that a block tag's full
delimited text contains its inner contents as a substring ("the full text
contains the inner text as a substring"). -/
def BlockTag.wellFormed (t : BlockTag) : Prop :=
  t.contents.toList <:+: t.full_block.toList

/-- Characters of a path after the last `/` — `os.path.basename`. -/
def basenameChars (cs : List Char) : List Char :=
  cs.foldl (fun acc c => if c = '/' then [] else acc ++ [c]) []

/-- The root part of `os.path.splitext` on a basename: strip the suffix that
starts at the last dot, unless every character before that dot is itself a
dot (Python's leading-dot rule, so `.hidden` keeps its name). -/
def splitextRootChars (b : List Char) : List Char :=
  let r := b.reverse
  match r.dropWhile (fun c => c ≠ '.') with
  | [] => b
  | _ :: preRev =>
    let pre := preRev.reverse
    if pre.all (fun c => c = '.') then b else pre

/-- `FileBlock`: the whole-file view (search.py lines 28-44). -/
structure FileBlock where
  file : AnySourceFile
  deriving Repr, DecidableEq

/-- `FileBlock.name`: basename of the relative path with its extension
stripped. -/
def FileBlock.name (fb : FileBlock) : String :=
  String.mk (splitextRootChars (basenameChars fb.file.path.relative_path.toList))

/-- `FileBlock.contents`: the whole file's text. -/
def FileBlock.contents (fb : FileBlock) : String :=
  fb.file.contents

/-- `FileBlock.path`: the underlying file-path record. -/
def FileBlock.path (fb : FileBlock) : FilePath :=
  fb.file.path

/-- `BlockContents` (search.py lines 50-61): the inner-contents view over a
(file, block-tag) pair. -/
structure BlockContents where
  file : AnySourceFile
  block : BlockTag
  deriving Repr, DecidableEq

/-- `BlockContents.name` overrides `FileBlock.name` with the tag's block
name. -/
def BlockContents.name (b : BlockContents) : String :=
  b.block.block_name

/-- `BlockContents.contents` returns the tag's raw inner contents. -/
def BlockContents.contents (b : BlockContents) : String :=
  b.block.contents

/-- `BlockContents.path` is inherited unchanged from `FileBlock`. -/
def BlockContents.path (b : BlockContents) : FilePath :=
  b.file.path

/-- `FullBlock` (search.py lines 64-75): the full-text view over a
(file, block-tag) pair. -/
structure FullBlock where
  file : AnySourceFile
  block : BlockTag
  deriving Repr, DecidableEq

/-- `FullBlock.name` overrides `FileBlock.name` with the tag's block name. -/
def FullBlock.name (b : FullBlock) : String :=
  b.block.block_name

/-- `FullBlock.contents` returns the tag's full delimited text. -/
def FullBlock.contents (b : FullBlock) : String :=
  b.block.full_block

/-- `FullBlock.path` is inherited unchanged from `FileBlock`. -/
def FullBlock.path (b : FullBlock) : FilePath :=
  b.file.path

/-- `ExtractWarning` reported by the engine through the warning callback. -/
structure ExtractWarning where
  msg : String
  deriving Repr, DecidableEq

/-- An item yielded by the engine: either an actual `BlockTag`, or some other
object (in Python, `isinstance(block, BlockTag)` would be false for it). -/
inductive EngineItem where
  | tag (t : BlockTag)
  | notTag
  deriving Repr, DecidableEq

/-- `ParsingError` (`dbt.exceptions.ParsingError`) as used by
`extract_blocks`: a message and an optional attached node, here the
`FileBlock` that `add_node` would attach. -/
structure ParsingError where
  msg : String
  node : Option FileBlock
  deriving Repr, DecidableEq

/-- One invocation of `extract_toplevel_blocks`: the warning-callback calls it
makes (in order) and either the item list it returns or the `ParsingError` it
raises. -/
structure EngineRun where
  warnings : List ExtractWarning
  result : Except ParsingError (List EngineItem)

/-- Modelled from the spec: the external block-extraction engine
`extract_toplevel_blocks`, a function of the text, the allowed block-type
names and the collect-raw-data flag. -/
def Engine : Type :=
  String → List String → Bool → EngineRun

/-- One call to `deprecations.warn(name, msg=..., file=...)`, recorded instead
of performed. -/
structure DeprecationCall where
  name : String
  msg : String
  file : String
  deriving Repr, DecidableEq

/-- `BlockSearcher._handle_extract_warning` (search.py lines 141-142): forward
the warning to the deprecation sink under the fixed category
`unexpected-jinja-block-deprecation` with the given file path. -/
def handle_extract_warning (warning : ExtractWarning) (file : String) : DeprecationCall :=
  { name := "unexpected-jinja-block-deprecation", msg := warning.msg, file := file }

/-- Outcome of the `extract_blocks` generator for one file: all tags yielded
normally, a `ParsingError` propagated (after enrichment), or an
`AssertionError` from `assert isinstance(block, BlockTag)` after some tags
were already yielded. -/
inductive ExtractResult where
  | ok (blocks : List BlockTag)
  | parseError (e : ParsingError)
  | assertFail (yielded : List BlockTag)
  deriving Repr, DecidableEq

/-- The `for block in blocks: assert isinstance(block, BlockTag); yield block`
loop: yields tags until the first non-tag item, which raises. -/
def scanTags : List EngineItem → ExtractResult
  | [] => ExtractResult.ok []
  | EngineItem.notTag :: _ => ExtractResult.assertFail []
  | EngineItem.tag t :: rest =>
    match scanTags rest with
    | ExtractResult.ok bs => ExtractResult.ok (t :: bs)
    | ExtractResult.assertFail ys => ExtractResult.assertFail (t :: ys)
    | ExtractResult.parseError e => ExtractResult.parseError e

/-- The tags preceding the first non-tag item of an engine item list. -/
def tagsBeforeBad : List EngineItem → List BlockTag
  | EngineItem.tag t :: rest => t :: tagsBeforeBad rest
  | _ => []

/-- `BlockSearcher` (search.py lines 108-117): the file views, the allowed
block-type names and the result factory.  `α` is the result type
(`BlockContents` or `FullBlock` in practice). -/
structure BlockSearcher (α : Type) where
  source : List FileBlock
  allowed_blocks : List String
  source_tag_factory : AnySourceFile → BlockTag → α

/-- `BlockSearcher.extract_blocks` (search.py lines 119-139): call the engine
with the file's contents, the allowed blocks and `collect_raw_data=False`,
forwarding each warning to the deprecation sink bound to this file's relative
path; validate each yielded item is a `BlockTag`; on a `ParsingError`, attach
the file as the node if none is set, and re-raise. -/
def BlockSearcher.extract_blocks {α : Type} (engine : Engine) (s : BlockSearcher α)
    (source_file : FileBlock) : List DeprecationCall × ExtractResult :=
  let run := engine source_file.contents s.allowed_blocks false
  let deps := run.warnings.map fun w =>
    handle_extract_warning w source_file.path.relative_path
  match run.result with
  | Except.ok items => (deps, scanTags items)
  | Except.error exc =>
    (deps, ExtractResult.parseError
      (if exc.node.isNone then { exc with node := some source_file } else exc))

/-- The tags `extract_blocks` yields for a file when it succeeds (and `[]`
otherwise). -/
def extractTags {α : Type} (engine : Engine) (s : BlockSearcher α)
    (f : FileBlock) : List BlockTag :=
  match (s.extract_blocks engine f).2 with
  | ExtractResult.ok bs => bs
  | _ => []

/-- Outcome of a full `BlockSearcher.__iter__` run as observed by a consumer
collecting results until the generator finishes or raises. -/
inductive IterResult (α : Type) where
  | ok (results : List α)
  | parseError (yielded : List α) (e : ParsingError)
  | assertFail (yielded : List α)
  deriving Repr, DecidableEq

/-- Prepend already-yielded results to the outcome of the rest of a run. -/
def iterPrepend {α : Type} (rs : List α) : IterResult α → IterResult α
  | IterResult.ok xs => IterResult.ok (rs ++ xs)
  | IterResult.parseError ys e => IterResult.parseError (rs ++ ys) e
  | IterResult.assertFail ys => IterResult.assertFail (rs ++ ys)

/-- The `for entry in self.source` loop of `BlockSearcher.__iter__`
(search.py lines 144-147), over an explicit file list: per file, run
`extract_blocks` and yield `source_tag_factory(entry.file, block)` for each
block; any exception aborts the remaining files. -/
def runFiles {α : Type} (engine : Engine) (s : BlockSearcher α) :
    List FileBlock → List DeprecationCall × IterResult α
  | [] => ([], IterResult.ok [])
  | entry :: rest =>
    match s.extract_blocks engine entry with
    | (deps, ExtractResult.ok blocks) =>
      let next := runFiles engine s rest
      (deps ++ next.1,
       iterPrepend (blocks.map (s.source_tag_factory entry.file)) next.2)
    | (deps, ExtractResult.parseError e) => (deps, IterResult.parseError [] e)
    | (deps, ExtractResult.assertFail ys) =>
      (deps, IterResult.assertFail (ys.map (s.source_tag_factory entry.file)))

/-- One full iteration of the searcher (`__iter__`): the deprecation calls
made and the results/outcome observed by the consumer. -/
def BlockSearcher.iter {α : Type} (engine : Engine) (s : BlockSearcher α) :
    List DeprecationCall × IterResult α :=
  runFiles engine s s.source

/-- `__iter__` with the post-iteration object made explicit: the class body
contains no field assignment outside `__init__`, so iteration returns the
searcher unchanged. -/
def BlockSearcher.produce_results {α : Type} (engine : Engine) (s : BlockSearcher α) :
    (List DeprecationCall × IterResult α) × BlockSearcher α :=
  (s.iter engine, s)

/-- Modelled from the spec: membership test of one fnmatch character class —
`[...]` matches a listed character, `[!...]` matches an unlisted one. -/
def matchClass (negated : Bool) (cls : List Char) (c : Char) : Bool :=
  if negated then !(cls.contains c) else cls.contains c

/-- Modelled from the spec: scan an fnmatch class body up to its closing `]`,
returning the listed characters and the remaining pattern; `none` when the
class is unterminated. -/
def scanClass : List Char → Option (List Char × List Char)
  | [] => none
  | c :: rest =>
    if c = ']' then some ([], rest)
    else (scanClass rest).map fun pr => (c :: pr.1, pr.2)

/-- Modelled from the spec: parse an fnmatch class after its `[`, with a `]`
in first position taken literally. -/
def splitClassBody : List Char → Option (List Char × List Char)
  | [] => none
  | c :: rest =>
    if c = ']' then (scanClass rest).map fun pr => (']' :: pr.1, pr.2)
    else (scanClass (c :: rest)).map fun pr => pr

/-- Modelled from the spec: parse an fnmatch class after its `[`, handling a
leading `!` negation. -/
def splitClass : List Char → Option (Bool × List Char × List Char)
  | [] => none
  | c :: rest =>
    if c = '!' then (splitClassBody rest).map fun pr => (true, pr.1, pr.2)
    else (splitClassBody (c :: rest)).map fun pr => (false, pr.1, pr.2)

/-- One token of a parsed fnmatch pattern. -/
inductive GlobTok where
  | lit (c : Char)
  | anyOne
  | star
  | cls (negated : Bool) (chars : List Char)
  deriving Repr, DecidableEq

theorem scanClass_length {cs body rest : List Char}
    (h : scanClass cs = some (body, rest)) : rest.length < cs.length := by
  induction cs generalizing body rest with
  | nil => simp [scanClass] at h
  | cons c cs ih =>
    rw [scanClass] at h
    by_cases hc : c = ']'
    · rw [if_pos hc] at h
      simp only [Option.some.injEq, Prod.mk.injEq] at h
      obtain ⟨_, h2⟩ := h
      subst h2
      simp
    · rw [if_neg hc] at h
      cases hsc : scanClass cs with
      | none => rw [hsc] at h; simp at h
      | some pr =>
        obtain ⟨b, r⟩ := pr
        rw [hsc] at h
        simp only [Option.map_some', Option.some.injEq, Prod.mk.injEq] at h
        obtain ⟨_, h2⟩ := h
        subst h2
        have := ih hsc
        simp only [List.length_cons]
        omega

theorem splitClassBody_length {cs body rest : List Char}
    (h : splitClassBody cs = some (body, rest)) : rest.length < cs.length := by
  match cs with
  | [] => simp [splitClassBody] at h
  | c :: cs =>
    rw [splitClassBody] at h
    by_cases hc : c = ']'
    · rw [if_pos hc] at h
      cases hsc : scanClass cs with
      | none => rw [hsc] at h; simp at h
      | some pr =>
        obtain ⟨b, r⟩ := pr
        rw [hsc] at h
        simp only [Option.map_some', Option.some.injEq, Prod.mk.injEq] at h
        obtain ⟨_, h2⟩ := h
        subst h2
        have := scanClass_length hsc
        simp only [List.length_cons]
        omega
    · rw [if_neg hc] at h
      cases hsc : scanClass (c :: cs) with
      | none => rw [hsc] at h; simp at h
      | some pr =>
        obtain ⟨b, r⟩ := pr
        rw [hsc] at h
        simp only [Option.map_some', Option.some.injEq, Prod.mk.injEq] at h
        obtain ⟨_, h2⟩ := h
        subst h2
        exact scanClass_length hsc

theorem splitClass_length {cs : List Char} {neg : Bool} {body rest : List Char}
    (h : splitClass cs = some (neg, body, rest)) : rest.length < cs.length := by
  match cs with
  | [] => simp [splitClass] at h
  | c :: cs =>
    rw [splitClass] at h
    by_cases hc : c = '!'
    · rw [if_pos hc] at h
      cases hsc : splitClassBody cs with
      | none => rw [hsc] at h; simp at h
      | some pr =>
        obtain ⟨b, r⟩ := pr
        rw [hsc] at h
        simp only [Option.map_some', Option.some.injEq, Prod.mk.injEq] at h
        obtain ⟨_, _, h2⟩ := h
        subst h2
        have := splitClassBody_length hsc
        simp only [List.length_cons]
        omega
    · rw [if_neg hc] at h
      cases hsc : splitClassBody (c :: cs) with
      | none => rw [hsc] at h; simp at h
      | some pr =>
        obtain ⟨b, r⟩ := pr
        rw [hsc] at h
        simp only [Option.map_some', Option.some.injEq, Prod.mk.injEq] at h
        obtain ⟨_, _, h2⟩ := h
        subst h2
        exact splitClassBody_length hsc

/-- Modelled from the spec: tokenize an fnmatch-style glob pattern.  An
unterminated class leaves the `[` literal. -/
def parseGlob : List Char → List GlobTok
  | [] => []
  | c :: p =>
    if c = '*' then GlobTok.star :: parseGlob p
    else if c = '?' then GlobTok.anyOne :: parseGlob p
    else if c = '[' then
      match hsc : splitClass p with
      | some (neg, cls, p2) => GlobTok.cls neg cls :: parseGlob p2
      | none => GlobTok.lit c :: parseGlob p
    else GlobTok.lit c :: parseGlob p
  termination_by cs => cs.length
  decreasing_by
  all_goals simp only [List.length_cons]
  all_goals try omega
  have hlen := splitClass_length hsc
  omega

/-- Modelled from the spec: match a tokenized glob pattern against a name. -/
def tokMatch : List GlobTok → List Char → Bool
  | [], s => s.isEmpty
  | GlobTok.star :: ts, [] => tokMatch ts []
  | GlobTok.star :: ts, c :: s => tokMatch ts (c :: s) || tokMatch (GlobTok.star :: ts) s
  | GlobTok.anyOne :: _, [] => false
  | GlobTok.anyOne :: ts, _ :: s => tokMatch ts s
  | GlobTok.cls _ _ :: _, [] => false
  | GlobTok.cls n cs :: ts, c :: s => matchClass n cs c && tokMatch ts s
  | GlobTok.lit _ :: _, [] => false
  | GlobTok.lit c :: ts, d :: s => (c == d) && tokMatch ts s
  termination_by ts s => (s.length, ts.length)

/-- Modelled from the spec: fnmatch-style glob matching, as performed by the
external matcher on the pattern `filesystem_search` builds. -/
def fnmatch (pat name : String) : Bool :=
  tokMatch (parseGlob pat.toList) name.toList

/-- Presence of all three fields `filesystem_search` reads from a matcher
record. -/
def MatchRecord.complete (r : MatchRecord) : Prop :=
  r.searched_path.isSome = true ∧ r.relative_path.isSome = true ∧
    r.modification_time.isSome = true

instance (r : MatchRecord) : Decidable r.complete := by
  unfold MatchRecord.complete
  infer_instance

/-- The `FilePath` built from a complete matcher record (the `getD` defaults
are never reached on complete records). -/
def buildFilePath (root : String) (r : MatchRecord) : FilePath :=
  { searched_path := r.searched_path.getD "",
    relative_path := r.relative_path.getD "",
    modification_time := r.modification_time.getD 0,
    project_root := root }

/-- A concrete path record used to instantiate the theorems below. -/
def sampleFilePath : FilePath :=
  { searched_path := "models", relative_path := "a.sql",
    modification_time := 1, project_root := "/proj" }

/-- A concrete loaded source file. -/
def sampleFile : AnySourceFile :=
  { path := sampleFilePath, contents := "text" }

/-- The whole-file view over `sampleFile`. -/
def sampleFileBlock : FileBlock :=
  { file := sampleFile }

/-- A concrete block tag whose full text contains its inner contents. -/
def sampleTag : BlockTag :=
  { block_type_name := "snapshot", block_name := "foo",
    contents := "select 1", full_block := "block snapshot foo: select 1 end" }

/-- A second concrete block tag. -/
def sampleTag2 : BlockTag :=
  { block_type_name := "snapshot", block_name := "bar",
    contents := "select 2", full_block := "block snapshot bar: select 2 end" }

/-- A concrete searcher over one file producing `BlockContents` results. -/
def searcherC : BlockSearcher BlockContents :=
  { source := [sampleFileBlock], allowed_blocks := ["snapshot"],
    source_tag_factory := BlockContents.mk }

/-- An engine run that emits two block tags and no warnings. -/
def engOk : Engine := fun _ _ _ =>
  { warnings := [], result := Except.ok [EngineItem.tag sampleTag, EngineItem.tag sampleTag2] }

/-- An engine run that yields an item which is not a block tag between two
tags. -/
def engBadItem : Engine := fun _ _ _ =>
  { warnings := [],
    result := Except.ok [EngineItem.tag sampleTag, EngineItem.notTag, EngineItem.tag sampleTag2] }

/-- An engine run that reports one warning and emits one tag. -/
def engWarn : Engine := fun _ _ _ =>
  { warnings := [{ msg := "unrecognized block" }],
    result := Except.ok [EngineItem.tag sampleTag] }

/-- An engine run identical to `engWarn` except that it reports no warning. -/
def engNoWarn : Engine := fun _ _ _ =>
  { warnings := [], result := Except.ok [EngineItem.tag sampleTag] }

/-- An engine run that raises a parse error carrying no node. -/
def engErr : Engine := fun _ _ _ =>
  { warnings := [], result := Except.error { msg := "unterminated block", node := none } }

/-- An engine that behaves like `engNoWarn` when the collect-raw-data flag is
false but yields a non-tag item when it is true. -/
def engFlagSensitive : Engine := fun _ _ b =>
  { warnings := [],
    result := Except.ok (cond b [EngineItem.notTag] [EngineItem.tag sampleTag]) }

/-- A matcher returning one complete record. -/
def matcherGood : Matcher := fun _ _ _ _ =>
  [{ searched_path := some "models", relative_path := some "a.sql",
     modification_time := some 5 }]

/-- A matcher returning one record that lacks `searched_path`. -/
def matcherBad : Matcher := fun _ _ _ _ =>
  [{ searched_path := none, relative_path := some "b.sql",
     modification_time := some 5 }]

/-- A matcher returning one record that has both paths but lacks
`modification_time`. -/
def matcherNoMt : Matcher := fun _ _ _ _ =>
  [{ searched_path := some "models", relative_path := some "a.sql",
     modification_time := none }]

/-- A concrete project. -/
def projSample : Project :=
  { project_root := "/proj" }

theorem extract_blocks_fst {α : Type} (engine : Engine) (s : BlockSearcher α)
    (f : FileBlock) :
    (s.extract_blocks engine f).1 =
      (engine f.contents s.allowed_blocks false).warnings.map
        (fun w => handle_extract_warning w f.path.relative_path) := by
  simp only [BlockSearcher.extract_blocks]
  cases hres : (engine f.contents s.allowed_blocks false).result <;> simp [hres]

theorem extract_blocks_snd_ok {α : Type} {engine : Engine} {s : BlockSearcher α}
    {f : FileBlock} {items : List EngineItem}
    (h : (engine f.contents s.allowed_blocks false).result = Except.ok items) :
    (s.extract_blocks engine f).2 = scanTags items := by
  simp only [BlockSearcher.extract_blocks]
  rw [h]

theorem extract_blocks_snd_err {α : Type} {engine : Engine} {s : BlockSearcher α}
    {f : FileBlock} {exc : ParsingError}
    (h : (engine f.contents s.allowed_blocks false).result = Except.error exc) :
    (s.extract_blocks engine f).2 =
      ExtractResult.parseError
        (if exc.node.isNone then { exc with node := some f } else exc) := by
  simp only [BlockSearcher.extract_blocks]
  rw [h]

theorem scanTags_all_tags (bs : List BlockTag) :
    scanTags (bs.map EngineItem.tag) = ExtractResult.ok bs := by
  induction bs with
  | nil => rfl
  | cons b bs ih => simp [scanTags, ih]

theorem scanTags_bad {items : List EngineItem}
    (h : EngineItem.notTag ∈ items) :
    scanTags items = ExtractResult.assertFail (tagsBeforeBad items) := by
  induction items with
  | nil => cases h
  | cons i rest ih =>
    cases i with
    | notTag => rfl
    | tag t =>
      have hrest : EngineItem.notTag ∈ rest := by
        cases h with
        | tail _ h2 => exact h2
      rw [scanTags, ih hrest, tagsBeforeBad]

theorem scanTags_ok_inv {items : List EngineItem} {bs : List BlockTag}
    (h : scanTags items = ExtractResult.ok bs) :
    items = bs.map EngineItem.tag := by
  induction items generalizing bs with
  | nil =>
    rw [scanTags] at h
    cases h
    rfl
  | cons i rest ih =>
    cases i with
    | notTag => rw [scanTags] at h; cases h
    | tag t =>
      rw [scanTags] at h
      cases hrest : scanTags rest with
      | ok bs2 =>
        rw [hrest] at h
        cases h
        simp [ih hrest]
      | assertFail ys => rw [hrest] at h; cases h
      | parseError e => rw [hrest] at h; cases h

theorem runFiles_nil {α : Type} (engine : Engine) (s : BlockSearcher α) :
    runFiles engine s [] = ([], IterResult.ok []) := rfl

theorem runFiles_cons_ok {α : Type} {engine : Engine} {s : BlockSearcher α}
    {entry : FileBlock} {rest : List FileBlock} {deps : List DeprecationCall}
    {blocks : List BlockTag}
    (h : s.extract_blocks engine entry = (deps, ExtractResult.ok blocks)) :
    runFiles engine s (entry :: rest) =
      (deps ++ (runFiles engine s rest).1,
       iterPrepend (blocks.map (s.source_tag_factory entry.file))
         (runFiles engine s rest).2) := by
  rw [runFiles, h]

theorem runFiles_cons_err {α : Type} {engine : Engine} {s : BlockSearcher α}
    {entry : FileBlock} {rest : List FileBlock} {deps : List DeprecationCall}
    {e : ParsingError}
    (h : s.extract_blocks engine entry = (deps, ExtractResult.parseError e)) :
    runFiles engine s (entry :: rest) = (deps, IterResult.parseError [] e) := by
  rw [runFiles, h]

theorem runFiles_cons_assert {α : Type} {engine : Engine} {s : BlockSearcher α}
    {entry : FileBlock} {rest : List FileBlock} {deps : List DeprecationCall}
    {ys : List BlockTag}
    (h : s.extract_blocks engine entry = (deps, ExtractResult.assertFail ys)) :
    runFiles engine s (entry :: rest) =
      (deps, IterResult.assertFail (ys.map (s.source_tag_factory entry.file))) := by
  rw [runFiles, h]

theorem extractTags_of_ok {α : Type} {engine : Engine} {s : BlockSearcher α}
    {f : FileBlock} {bs : List BlockTag}
    (h : (s.extract_blocks engine f).2 = ExtractResult.ok bs) :
    extractTags engine s f = bs := by
  unfold extractTags
  rw [h]

theorem runFiles_all_ok {α : Type} (engine : Engine) (s : BlockSearcher α)
    (l : List FileBlock)
    (h : ∀ f ∈ l, ∃ bs, (s.extract_blocks engine f).2 = ExtractResult.ok bs) :
    (runFiles engine s l).2 =
      IterResult.ok
        (l.flatMap fun f => (extractTags engine s f).map (s.source_tag_factory f.file)) := by
  induction l with
  | nil => rfl
  | cons entry rest ih =>
    obtain ⟨bs, hbs⟩ := h entry (List.mem_cons_self entry rest)
    have hx : s.extract_blocks engine entry = ((s.extract_blocks engine entry).1, ExtractResult.ok bs) := by
      rw [← hbs]
    rw [runFiles_cons_ok hx, List.flatMap_cons,
        ih (fun f hf => h f (List.mem_cons_of_mem entry hf)),
        extractTags_of_ok hbs]
    rfl

theorem runFiles_err {α : Type} (engine : Engine) (s : BlockSearcher α)
    (pre : List FileBlock) (f : FileBlock) (rest : List FileBlock) (e : ParsingError)
    (hpre : ∀ g ∈ pre, ∃ bs, (s.extract_blocks engine g).2 = ExtractResult.ok bs)
    (herr : (engine f.contents s.allowed_blocks false).result = Except.error e) :
    (runFiles engine s (pre ++ f :: rest)).2 =
      IterResult.parseError
        (pre.flatMap fun g => (extractTags engine s g).map (s.source_tag_factory g.file))
        (if e.node.isNone then { e with node := some f } else e) := by
  induction pre with
  | nil =>
    have h2 := @extract_blocks_snd_err α engine s f e herr
    have hx : s.extract_blocks engine f =
        ((s.extract_blocks engine f).1,
         ExtractResult.parseError
           (if e.node.isNone then { e with node := some f } else e)) := by
      rw [← h2]
    rw [List.nil_append, runFiles_cons_err hx]
    rfl
  | cons g pre ih =>
    obtain ⟨bs, hbs⟩ := hpre g (List.mem_cons_self g pre)
    have hx : s.extract_blocks engine g =
        ((s.extract_blocks engine g).1, ExtractResult.ok bs) := by
      rw [← hbs]
    rw [List.cons_append, runFiles_cons_ok hx,
        List.flatMap_cons, extractTags_of_ok hbs]
    have ih2 := ih (fun x hx2 => hpre x (List.mem_cons_of_mem g hx2))
    rw [ih2]
    rfl

theorem extract_blocks_engine_congr {α : Type} {engine engine2 : Engine}
    (s : BlockSearcher α) (f : FileBlock)
    (h : engine f.contents s.allowed_blocks false = engine2 f.contents s.allowed_blocks false) :
    s.extract_blocks engine f = s.extract_blocks engine2 f := by
  simp only [BlockSearcher.extract_blocks, h]

theorem runFiles_engine_congr {α : Type} {engine engine2 : Engine}
    (s : BlockSearcher α) (l : List FileBlock)
    (h : ∀ text allowed, engine text allowed false = engine2 text allowed false) :
    runFiles engine s l = runFiles engine2 s l := by
  induction l with
  | nil => rfl
  | cons entry rest ih =>
    rw [runFiles]
    conv_rhs => rw [runFiles]
    rw [extract_blocks_engine_congr s entry (h entry.contents s.allowed_blocks), ih]

theorem filePathsOf_complete (root : String) (recs : List MatchRecord)
    (h : ∀ r ∈ recs, r.complete) :
    filePathsOf root recs = Except.ok (recs.map (buildFilePath root)) := by
  induction recs with
  | nil => rfl
  | cons r rest ih =>
    obtain ⟨h1, h2, h3⟩ := h r (List.mem_cons_self r rest)
    rw [Option.isSome_iff_exists] at h1 h2 h3
    obtain ⟨sp, hsp⟩ := h1
    obtain ⟨rp, hrp⟩ := h2
    obtain ⟨mt, hmt⟩ := h3
    rw [filePathsOf, hsp, hrp, hmt, ih (fun x hx => h x (List.mem_cons_of_mem r hx))]
    simp [buildFilePath, hsp, hrp, hmt]

theorem filePathsOf_missing (root : String) (pre : List MatchRecord)
    (bad : MatchRecord) (rest : List MatchRecord)
    (hpre : ∀ r ∈ pre, r.complete)
    (hbad : bad.searched_path = none ∨ bad.relative_path = none) :
    filePathsOf root (pre ++ bad :: rest) =
      Except.error (SearchError.internalError "Invalid result from find_matching") := by
  induction pre with
  | nil =>
    rw [List.nil_append, filePathsOf]
    cases hbad with
    | inl hsp =>
      rw [hsp]
    | inr hrp =>
      rw [hrp]
      cases bad.searched_path <;> rfl
  | cons r pre ih =>
    obtain ⟨h1, h2, h3⟩ := hpre r (List.mem_cons_self r pre)
    rw [Option.isSome_iff_exists] at h1 h2 h3
    obtain ⟨sp, hsp⟩ := h1
    obtain ⟨rp, hrp⟩ := h2
    obtain ⟨mt, hmt⟩ := h3
    rw [List.cons_append, filePathsOf, hsp, hrp, hmt,
        ih (fun x hx => hpre x (List.mem_cons_of_mem r hx))]

theorem filePathsOf_noMt (root : String) (pre : List MatchRecord)
    (r : MatchRecord) (rest : List MatchRecord)
    (hpre : ∀ x ∈ pre, x.complete)
    (hsp : r.searched_path.isSome = true) (hrp : r.relative_path.isSome = true)
    (hmt : r.modification_time = none) :
    filePathsOf root (pre ++ r :: rest) =
      Except.error (SearchError.keyError "modification_time") := by
  induction pre with
  | nil =>
    rw [Option.isSome_iff_exists] at hsp hrp
    obtain ⟨sp, hsp2⟩ := hsp
    obtain ⟨rp, hrp2⟩ := hrp
    rw [List.nil_append, filePathsOf, hsp2, hrp2, hmt]
  | cons x pre ih =>
    obtain ⟨h1, h2, h3⟩ := hpre x (List.mem_cons_self x pre)
    rw [Option.isSome_iff_exists] at h1 h2 h3
    obtain ⟨sp, hsp2⟩ := h1
    obtain ⟨rp, hrp2⟩ := h2
    obtain ⟨mt, hmt2⟩ := h3
    rw [List.cons_append, filePathsOf, hsp2, hrp2, hmt2,
        ih (fun y hy => hpre y (List.mem_cons_of_mem x hy))]

theorem parseGlob_plain (ext : List Char)
    (h : ∀ c ∈ ext, c ≠ '*' ∧ c ≠ '?' ∧ c ≠ '[') :
    parseGlob ext = ext.map GlobTok.lit := by
  induction ext with
  | nil => simp [parseGlob]
  | cons c p ih =>
    obtain ⟨h1, h2, h3⟩ := h c (List.mem_cons_self c p)
    rw [parseGlob, if_neg h1, if_neg h2, if_neg h3,
        ih (fun d hd => h d (List.mem_cons_of_mem c hd)), List.map_cons]

theorem tokMatch_lits (ext : List Char) (s : List Char) :
    tokMatch (ext.map GlobTok.lit) s = true ↔ s = ext := by
  induction ext generalizing s with
  | nil => cases s <;> simp [tokMatch]
  | cons c p ih =>
    cases s with
    | nil => simp [tokMatch]
    | cons d s2 =>
      simp only [List.map_cons, tokMatch, Bool.and_eq_true, beq_iff_eq, ih,
        List.cons.injEq]
      exact ⟨fun pr => ⟨pr.1.symm, pr.2⟩, fun pr => ⟨pr.1.symm, pr.2⟩⟩

theorem tokMatch_star_lits (ext : List Char) (s : List Char) :
    tokMatch (GlobTok.star :: ext.map GlobTok.lit) s = true ↔ ext <:+ s := by
  induction s with
  | nil =>
    rw [tokMatch, tokMatch_lits, List.suffix_nil]
    exact eq_comm
  | cons c s2 ih =>
    rw [tokMatch, Bool.or_eq_true, tokMatch_lits, ih, List.suffix_cons_iff]
    exact or_congr eq_comm Iff.rfl

theorem splitClass_searchClass (rest : List Char) :
    splitClass ('!' :: '.' :: '#' :: '~' :: ']' :: rest) =
      some (true, ['.', '#', '~'], rest) := by
  simp [splitClass, splitClassBody, scanClass]

theorem parseGlob_searchPat (rest : List Char) :
    parseGlob ('[' :: '!' :: '.' :: '#' :: '~' :: ']' :: rest) =
      GlobTok.cls true ['.', '#', '~'] :: parseGlob rest := by
  rw [parseGlob, if_neg (by decide), if_neg (by decide), if_pos rfl]
  split
  · rename_i neg cls p2 hsc
    rw [splitClass_searchClass] at hsc
    cases hsc
    rfl
  · rename_i hsc
    rw [splitClass_searchClass] at hsc
    cases hsc

theorem searchPattern_toList (extension : String) :
    (searchPattern extension).toList =
      '[' :: '!' :: '.' :: '#' :: '~' :: ']' :: '*' :: extension.toList := by
  simp [searchPattern, String.toList, String.data_append]

/-- C1: for every list of file views, when each file extracts cleanly, the
iteration outcome of `BlockSearcher` is exactly the concatenation, in input
file order, of each file's engine-emitted tags mapped one-to-one through the
result factory — one `BlockResult` per `BlockTag`, inner order the engine's
emission order, no reordering, no deduplication. -/
theorem blockSearcher_results_in_tag_order {α : Type} (engine : Engine)
    (s : BlockSearcher α)
    (h : ∀ f ∈ s.source, ∃ bs, (s.extract_blocks engine f).2 = ExtractResult.ok bs) :
    (s.iter engine).2 =
      IterResult.ok
        (s.source.flatMap fun f =>
          (extractTags engine s f).map (s.source_tag_factory f.file)) :=
  runFiles_all_ok engine s s.source h

theorem blockSearcher_results_in_tag_order_witness :
    (searcherC.iter engOk).2 =
      IterResult.ok [BlockContents.mk sampleFile sampleTag,
                     BlockContents.mk sampleFile sampleTag2] :=
  Eq.trans
    (blockSearcher_results_in_tag_order engOk searcherC
      (fun f hf => ⟨[sampleTag, sampleTag2], by
        cases hf with
        | head => rfl
        | tail _ h2 => cases h2⟩))
    rfl

/-- C2: every item the engine yields is validated to be a block tag: a
non-tag item makes `extract_blocks` fail with the assertion failure after
yielding exactly the tags that preceded it — it is never silently skipped. -/
theorem blockSearcher_rejects_non_blocktag_items {α : Type} (engine : Engine)
    (s : BlockSearcher α) (f : FileBlock) (items : List EngineItem)
    (h1 : (engine f.contents s.allowed_blocks false).result = Except.ok items)
    (h2 : EngineItem.notTag ∈ items) :
    (s.extract_blocks engine f).2 = ExtractResult.assertFail (tagsBeforeBad items) := by
  rw [extract_blocks_snd_ok h1, scanTags_bad h2]

theorem blockSearcher_rejects_non_blocktag_items_witness :
    (searcherC.extract_blocks engBadItem sampleFileBlock).2 =
      ExtractResult.assertFail [sampleTag] :=
  Eq.trans
    (blockSearcher_rejects_non_blocktag_items engBadItem searcherC sampleFileBlock
      [EngineItem.tag sampleTag, EngineItem.notTag, EngineItem.tag sampleTag2]
      rfl (by simp))
    rfl

/-- C3: every warning the engine reports during extraction of a file is
forwarded to the deprecation sink with the fixed category
`unexpected-jinja-block-deprecation`, the warning's message and that file's
relative path; and the warnings have no effect on the extraction outcome —
two engine behaviours agreeing on the item/error result yield the same block
outcome, so a warning never aborts iteration and never appears as a
result. -/
theorem blockSearcher_forwards_warnings {α : Type} (engine engine2 : Engine)
    (s : BlockSearcher α) (f : FileBlock)
    (h : (engine2 f.contents s.allowed_blocks false).result =
         (engine f.contents s.allowed_blocks false).result) :
    (s.extract_blocks engine f).1 =
      (engine f.contents s.allowed_blocks false).warnings.map
        (fun w => { name := "unexpected-jinja-block-deprecation", msg := w.msg,
                    file := f.path.relative_path }) ∧
    (s.extract_blocks engine2 f).2 = (s.extract_blocks engine f).2 := by
  constructor
  · exact extract_blocks_fst engine s f
  · cases hres : (engine f.contents s.allowed_blocks false).result with
    | ok items => rw [extract_blocks_snd_ok hres, extract_blocks_snd_ok (h.trans hres)]
    | error e => rw [extract_blocks_snd_err hres, extract_blocks_snd_err (h.trans hres)]

theorem blockSearcher_forwards_warnings_witness :
    (searcherC.extract_blocks engWarn sampleFileBlock).1 =
      [{ name := "unexpected-jinja-block-deprecation", msg := "unrecognized block",
         file := "a.sql" }] ∧
    (searcherC.extract_blocks engNoWarn sampleFileBlock).2 =
      (searcherC.extract_blocks engWarn sampleFileBlock).2 := by
  have h := blockSearcher_forwards_warnings engWarn engNoWarn searcherC sampleFileBlock rfl
  exact ⟨Eq.trans h.1 rfl, h.2⟩

/-- C4: when the engine raises a parse error on a file, the searcher attaches
that file as the error's location when none is set, leaves an already-set
location untouched, and propagates the error to the consumer: iteration ends
with only the results of the files before the failing one, and nothing is
produced for the failing or any remaining file. -/
theorem blockSearcher_enriches_parse_errors {α : Type} (engine : Engine)
    (s : BlockSearcher α) (pre : List FileBlock) (f : FileBlock)
    (rest : List FileBlock) (e : ParsingError)
    (hsrc : s.source = pre ++ f :: rest)
    (hpre : ∀ g ∈ pre, ∃ bs, (s.extract_blocks engine g).2 = ExtractResult.ok bs)
    (herr : (engine f.contents s.allowed_blocks false).result = Except.error e) :
    (s.iter engine).2 =
      IterResult.parseError
        (pre.flatMap fun g => (extractTags engine s g).map (s.source_tag_factory g.file))
        (if e.node.isNone then { e with node := some f } else e) := by
  unfold BlockSearcher.iter
  rw [hsrc]
  exact runFiles_err engine s pre f rest e hpre herr

theorem blockSearcher_enriches_parse_errors_witness :
    (searcherC.iter engErr).2 =
      IterResult.parseError []
        { msg := "unterminated block", node := some sampleFileBlock } :=
  Eq.trans
    (blockSearcher_enriches_parse_errors engErr searcherC [] sampleFileBlock []
      { msg := "unterminated block", node := none } rfl
      (fun g hg => absurd hg (List.not_mem_nil g)) rfl)
    rfl

/-- C5 (amended): for every record returned by the matcher, if the record
lacks `searched_path` or `relative_path`, `filesystem_search` fails
immediately with the internal-consistency error and returns no partial list;
otherwise, provided the record also carries `modification_time`, a
`FilePath` record is built from it and the output list preserves the
matcher's emission order. -/
theorem filesystem_search_validation_and_order (matcher : Matcher)
    (project : Project) (relative_dirs : List String) (extension : String)
    (ignore_spec : Option (List String)) :
    ((∀ r ∈ matcher project.project_root relative_dirs (searchPattern extension) ignore_spec,
        r.complete) →
      filesystem_search matcher project relative_dirs extension ignore_spec =
        Except.ok
          ((matcher project.project_root relative_dirs (searchPattern extension) ignore_spec).map
            (buildFilePath project.project_root))) ∧
    (∀ pre bad rest,
      matcher project.project_root relative_dirs (searchPattern extension) ignore_spec =
        pre ++ bad :: rest →
      (∀ r ∈ pre, r.complete) →
      (bad.searched_path = none ∨ bad.relative_path = none) →
      filesystem_search matcher project relative_dirs extension ignore_spec =
        Except.error (SearchError.internalError "Invalid result from find_matching")) := by
  constructor
  · intro h
    simp only [filesystem_search]
    exact filePathsOf_complete project.project_root _ h
  · intro pre bad rest hm hpre hbad
    simp only [filesystem_search]
    rw [hm]
    exact filePathsOf_missing project.project_root pre bad rest hpre hbad

theorem filesystem_search_validation_and_order_witness :
    filesystem_search matcherGood projSample ["models"] ".sql" none =
      Except.ok [{ searched_path := "models", relative_path := "a.sql",
                   modification_time := 5, project_root := "/proj" }] ∧
    filesystem_search matcherBad projSample ["models"] ".sql" none =
      Except.error (SearchError.internalError "Invalid result from find_matching") := by
  constructor
  · exact Eq.trans
      ((filesystem_search_validation_and_order matcherGood projSample ["models"]
        ".sql" none).1 (by decide)) rfl
  · exact (filesystem_search_validation_and_order matcherBad projSample ["models"]
      ".sql" none).2
      [] { searched_path := none, relative_path := some "b.sql",
           modification_time := some 5 } []
      rfl (fun x hx => absurd hx (List.not_mem_nil x)) (Or.inl rfl)

/-- C5 counterexample: a matcher record carrying both `searched_path` and
`relative_path` but no `modification_time` refutes the claim as stated — the
"otherwise" clause promises a built `FilePath` record, but `filesystem_search`
fails with a plain missing-key error and returns no list at all. -/
theorem filesystem_search_no_record_without_mtime :
    filesystem_search matcherNoMt projSample ["models"] ".sql" none =
      Except.error (SearchError.keyError "modification_time") := rfl

/-- C6: the `BlockContents` view and the `FullBlock` view built from the same
(file, tag) pair have the same name — the tag's block name — and the same
path — the file's path record — and the full view's contents contain the
contents view's contents as a substring (the containment being the engine's
block-tag invariant). -/
theorem contentsView_fullView_agree (f : AnySourceFile) (t : BlockTag)
    (h : t.wellFormed) :
    (BlockContents.mk f t).name = t.block_name ∧
    (FullBlock.mk f t).name = t.block_name ∧
    (BlockContents.mk f t).path = f.path ∧
    (FullBlock.mk f t).path = f.path ∧
    (BlockContents.mk f t).contents.toList <:+: (FullBlock.mk f t).contents.toList :=
  ⟨rfl, rfl, rfl, rfl, h⟩

theorem contentsView_fullView_agree_witness :
    (BlockContents.mk sampleFile sampleTag).name = sampleTag.block_name ∧
    (FullBlock.mk sampleFile sampleTag).name = sampleTag.block_name ∧
    (BlockContents.mk sampleFile sampleTag).path = sampleFile.path ∧
    (FullBlock.mk sampleFile sampleTag).path = sampleFile.path ∧
    (BlockContents.mk sampleFile sampleTag).contents.toList <:+:
      (FullBlock.mk sampleFile sampleTag).contents.toList :=
  contentsView_fullView_agree sampleFile sampleTag
    (show sampleTag.contents.toList <:+: sampleTag.full_block.toList by decide)

/-- C7: iterating the same `BlockSearcher` twice with the same engine
behaviour yields the identical outcome both times: iteration reads the
searcher's fields and mutates nothing, so the post-iteration searcher equals
the original and a second run over it produces the same deprecation calls and
results. -/
theorem blockSearcher_reiteration_identical {α : Type} (engine : Engine)
    (s : BlockSearcher α) :
    (s.produce_results engine).2 = s ∧
    ((s.produce_results engine).2.produce_results engine).1 =
      (s.produce_results engine).1 :=
  ⟨rfl, rfl⟩

/-- C9: a matcher record that has `searched_path` and `relative_path` but
lacks `modification_time` does not trigger the internal-consistency error:
the unguarded `modification_time` lookup fails with a plain missing-key
error instead. -/
theorem filesystem_search_missing_mtime_keyError (matcher : Matcher)
    (project : Project) (relative_dirs : List String) (extension : String)
    (ignore_spec : Option (List String)) (pre : List MatchRecord)
    (r : MatchRecord) (rest : List MatchRecord)
    (hm : matcher project.project_root relative_dirs (searchPattern extension) ignore_spec =
          pre ++ r :: rest)
    (hpre : ∀ x ∈ pre, x.complete)
    (hsp : r.searched_path.isSome = true) (hrp : r.relative_path.isSome = true)
    (hmt : r.modification_time = none) :
    filesystem_search matcher project relative_dirs extension ignore_spec =
      Except.error (SearchError.keyError "modification_time") ∧
    ∀ msg, filesystem_search matcher project relative_dirs extension ignore_spec ≠
      Except.error (SearchError.internalError msg) := by
  have heq : filesystem_search matcher project relative_dirs extension ignore_spec =
      filePathsOf project.project_root (pre ++ r :: rest) := by
    simp only [filesystem_search]
    rw [hm]
  rw [heq, filePathsOf_noMt project.project_root pre r rest hpre hsp hrp hmt]
  refine ⟨rfl, fun msg h => ?_⟩
  simp at h

theorem filesystem_search_missing_mtime_keyError_witness :
    filesystem_search matcherNoMt projSample ["models"] ".sql" none =
      Except.error (SearchError.keyError "modification_time") :=
  (filesystem_search_missing_mtime_keyError matcherNoMt projSample ["models"]
    ".sql" none []
    { searched_path := some "models", relative_path := some "a.sql",
      modification_time := none } []
    rfl (fun x hx => absurd hx (List.not_mem_nil x)) rfl rfl rfl).1

/-- C10: the searcher always calls the engine with the collect-raw-data flag
set to false — any two engines that agree when that flag is false produce
identical iterations for every searcher, so the engine's behaviour on a true
flag is unreachable and the choice is not configurable through the
searcher. -/
theorem blockSearcher_collect_raw_data_false {α : Type} (engine engine2 : Engine)
    (s : BlockSearcher α)
    (h : ∀ text allowed, engine text allowed false = engine2 text allowed false) :
    s.iter engine = s.iter engine2 :=
  runFiles_engine_congr s s.source h

theorem blockSearcher_collect_raw_data_false_witness :
    searcherC.iter engFlagSensitive = searcherC.iter engNoWarn :=
  blockSearcher_collect_raw_data_false engFlagSensitive engNoWarn searcherC
    (fun _ _ => rfl)

/-- C8 (amended): for every extension string that begins with a dot and
contains none of the glob metacharacters `*`, `?`, `[`, the pattern
`"[!.#~]*" ++ extension` that `filesystem_search` passes to the matcher
matches exactly the file names that end with that extension and do not begin
with `.`, `#` or `~`. -/
theorem searchPattern_matches_iff (extension name : String)
    (hplain : ∀ c ∈ extension.toList, c ≠ '*' ∧ c ≠ '?' ∧ c ≠ '[')
    (hdot : extension.toList.head? = some '.') :
    fnmatch (searchPattern extension) name = true ↔
      (extension.toList <:+ name.toList ∧
       ∀ c, name.toList.head? = some c → (c ≠ '.' ∧ c ≠ '#' ∧ c ≠ '~')) := by
  unfold fnmatch
  rw [searchPattern_toList, parseGlob_searchPat, parseGlob, if_pos rfl,
      parseGlob_plain extension.toList hplain]
  cases hn : name.toList with
  | nil =>
    constructor
    · intro hfalse
      rw [tokMatch] at hfalse
      cases hfalse
    · rintro ⟨hsuf, -⟩
      rw [List.suffix_nil] at hsuf
      rw [hsuf] at hdot
      cases hdot
  | cons c s2 =>
    rw [tokMatch, Bool.and_eq_true, tokMatch_star_lits]
    have hmc : (matchClass true ['.', '#', '~'] c = true) ↔
        (c ≠ '.' ∧ c ≠ '#' ∧ c ≠ '~') := by
      simp [matchClass]
    rw [hmc]
    simp only [List.head?_cons, Option.some.injEq]
    constructor
    · rintro ⟨hA, hS⟩
      refine ⟨List.suffix_cons_iff.mpr (Or.inr hS), ?_⟩
      intro d hd
      rw [← hd]
      exact hA
    · rintro ⟨hS, hhead⟩
      have hA := hhead c rfl
      refine ⟨hA, ?_⟩
      rcases List.suffix_cons_iff.mp hS with heq | h2
      · exfalso
        rw [heq, List.head?_cons, Option.some.injEq] at hdot
        exact hA.1 hdot
      · exact h2

theorem searchPattern_matches_iff_witness :
    fnmatch (searchPattern ".sql") "a.sql" = true :=
  (searchPattern_matches_iff ".sql" "a.sql" (by decide) rfl).mpr
    ⟨by decide, fun c hc => by cases hc; decide⟩

/-- C8 counterexample: with extension `"sql"` the name `"sql"` ends with the
extension and does not begin with `.`, `#` or `~`, yet the glob pattern
`"[!.#~]*sql"` does not match it (the character class must consume one
character before the extension can start), so the claim is false for
arbitrary extension strings. -/
theorem searchPattern_claim_counterexample :
    fnmatch (searchPattern "sql") "sql" = false ∧
    "sql".toList <:+ "sql".toList ∧
    "sql".toList.head? = some 's' ∧
    ('s' ≠ '.' ∧ 's' ≠ '#' ∧ 's' ≠ '~') := by
  refine ⟨?_, List.suffix_refl _, rfl, by decide⟩
  have h1 : ("sql" : String).toList = ['s', 'q', 'l'] := by decide
  unfold fnmatch
  rw [searchPattern_toList, h1, parseGlob_searchPat, parseGlob, if_pos rfl,
      parseGlob_plain ['s', 'q', 'l'] (by decide)]
  simp [tokMatch, matchClass]

end DbtSearch
